import Mathlib

/-!
Shallow embedding of the Pool Data Client in `src/lib/contract-client.ts`.

Modeling conventions, used throughout:
* JavaScript numbers, bigints and decimal number strings are modeled as exact
  rationals (`ℚ`) or integers; the decimal string "0" is the rational 0, and a
  value is an integer string exactly when its rational model has denominator 1.
* `async` calls to the ledger are modeled by passing the outcome of each
  external call explicitly as an `Except String α` value (a thrown `Error` is
  `Except.error` carrying its message string).
* Timestamps follow the source units: block timestamps are seconds on chain and
  milliseconds after `getBlockTimestamp` (which multiplies by 1000).
-/

namespace Maelstrom

/-- `UNSUPPORTED_CHAIN` error constant from contract-client.ts. -/
def UNSUPPORTED_CHAIN : String := "UNSUPPORTED_CHAIN"

/-- `PUBLIC_CLIENT_UNAVAILABLE` error constant from contract-client.ts. -/
def PUBLIC_CLIENT_UNAVAILABLE : String := "PUBLIC_CLIENT_UNAVAILABLE"

/-- Is `pat` a prefix of `hay`? (character-list helper for JS `String.includes`). -/
def strHasPre : (hay pat : List Char) → Bool
  | _, [] => true
  | [], _ :: _ => false
  | c :: cs, p :: ps => c == p && strHasPre cs ps

/-- Does `pat` occur as a contiguous substring of `hay`? -/
def strHasSub : (hay pat : List Char) → Bool
  | [], pat => pat.isEmpty
  | hay@(_ :: rest), pat => strHasPre hay pat || strHasSub rest pat

/-- JS `s.includes(pat)`. -/
def strIncludes (s pat : String) : Bool := strHasSub s.data pat.data

/-- JS `s.toLowerCase()` (all pattern characters involved are ASCII). -/
def jsToLower (s : String) : String := String.mk (s.data.map Char.toLower)

/-- `isExpectedReadFailure` from contract-client.ts: classifies an error message
as an expected/recoverable read failure. -/
def isExpectedReadFailure (error : String) : Bool :=
  let msg := jsToLower error
  strIncludes msg "returned no data" ||
  strIncludes msg "no data (0x)" ||
  (strIncludes msg "contract" && (strIncludes msg "not deployed" || strIncludes msg "could not be found")) ||
  strIncludes msg "no logs" ||
  strIncludes msg "no events" ||
  (strIncludes msg "pool" && strIncludes msg "not instantiated") ||
  (strIncludes msg "execution reverted" && (strIncludes msg "0x" || strIncludes msg "no data"))

/-- The connection state checked by `ensureCanRead`: whether
`CONTRACT_ADDRESSES[this.chainId]` is defined and whether `this.publicClient`
is available. -/
structure ReadCfg where
  hasAddress : Bool
  hasPublicClient : Bool
deriving DecidableEq

/-- `ensureCanRead` from contract-client.ts. -/
def ensureCanRead (cfg : ReadCfg) : Except String Unit :=
  if !cfg.hasAddress then Except.error UNSUPPORTED_CHAIN
  else if !cfg.hasPublicClient then Except.error PUBLIC_CLIENT_UNAVAILABLE
  else Except.ok ()

/-- `safeRead` from contract-client.ts: run `ensureCanRead`, then the read
(whose outcome is `res`); on an expected failure return `fallback`, on a fatal
failure rethrow the original error. -/
def safeRead {T : Type} (cfg : ReadCfg) (fallback : T) (res : Except String T) :
    Except String T :=
  match ensureCanRead cfg with
  | Except.error e => Except.error e
  | Except.ok _ =>
    match res with
    | Except.ok v => Except.ok v
    | Except.error e =>
      if isExpectedReadFailure e then Except.ok fallback else Except.error e

/-- `Token` from types: address, symbol, name, decimals. -/
structure Token where
  address : String
  symbol : String
  name : String
  decimals : Nat
deriving DecidableEq

/-- `Reserve` snapshot; the two minor-unit decimal strings are modeled as
rationals (the fallback string "0" is the rational 0). -/
structure Reserve where
  tokenReserve : ℚ
  ethReserve : ℚ
deriving DecidableEq

/-- `LiquidityPoolToken`: a token plus totalSupply and the caller balance. -/
structure LiquidityPoolToken where
  address : String
  symbol : String
  name : String
  decimals : Nat
  totalSupply : ℚ
  balance : ℚ
deriving DecidableEq

/-- `PoolFeesEvent`: timestamp in milliseconds (`getPoolFeeEvents` multiplies
the on-chain seconds by 1000) and the fee amount. -/
structure PoolFeesEvent where
  timestamp : ℚ
  fee : ℚ
deriving DecidableEq

/-- `Pool` aggregate view (field `totalLiquidty` spelled as in the source). -/
structure Pool where
  token : Token
  reserve : Reserve
  lpToken : LiquidityPoolToken
  buyPrice : ℚ
  sellPrice : ℚ
  avgPrice : ℚ
  tokenRatio : ℚ
  volume24h : ℚ
  totalLiquidty : ℚ
  apr : ℚ
  lastExchangeTs : ℤ
  lastUpdated : ℤ
deriving DecidableEq

/-- `DepositRequest`: token plus minor-unit amounts. -/
structure DepositRequest where
  token : Token
  tokenAmount : ℤ
  ethAmount : ℤ
deriving DecidableEq

/-- `DepositResult` as in the source (success flag, request echo, tx handle,
timestamp, error text). -/
structure DepositResult where
  success : Bool
  depositRequest : DepositRequest
  txHash : String
  timestamp : ℤ
  error : String
deriving DecidableEq

/-- A network round trip issued by the client: a state-mutating write or a
ledger read, tagged with the contract function name. -/
inductive NetCall
  | write (fn : String)
  | read (fn : String)
deriving DecidableEq

/-- The client configuration fixed at construction. -/
structure ContractClient where
  contractAddress : String
  chainId : Nat
deriving DecidableEq

/-- The `ContractClient` constructor: resolves `chainId ?? 63` in the
configured chain-to-address mapping and throws `UNSUPPORTED_CHAIN` when the
mapping has no entry.  The second component is the list of network calls the
constructor issues (none: the body only consults the local mapping). -/
def mkContractClient (addresses : Nat → Option String) (chainIdArg : Option Nat) :
    Except String ContractClient × List NetCall :=
  let chainId := chainIdArg.getD 63
  match addresses chainId with
  | none => (Except.error UNSUPPORTED_CHAIN, [])
  | some addr => (Except.ok { contractAddress := addr, chainId := chainId }, [])

/-- The all-zero address literal compared against in `isPoolInstantiated`. -/
def zeroAddress : String := "0x0000000000000000000000000000000000000000"

/-- `isPoolInstantiated` from contract-client.ts, as a function of the value
returned by the `poolToken` read (`none` models JS `undefined`).  The source
tests `data && data === zeroAddress`, where a string is truthy iff nonempty. -/
def isPoolInstantiated (data : Option String) : Bool :=
  match data with
  | some s => if (!(s == "")) && s == zeroAddress then false else true
  | none => true

/-- `approveToken` from contract-client.ts: submit the ERC-20 `approve` write
(outcome `approveRes`) and wrap any thrown error. -/
def approveToken (approveRes : Except String Unit) : Except String Unit :=
  match approveRes with
  | Except.ok _ => Except.ok ()
  | Except.error m => Except.error ("Token approval failed: " ++ m)

/-- `deposit` from contract-client.ts: approval phase, then the `deposit`
contract write with outcome `writeRes`; every thrown error is wrapped with a
"Deposit failed: " message.  The second component is the list of write calls
issued, in order. -/
def deposit (depositReq : DepositRequest) (now : ℤ)
    (approveRes : Except String Unit) (writeRes : Except String String) :
    Except String DepositResult × List NetCall :=
  match approveToken approveRes with
  | Except.error m => (Except.error ("Deposit failed: " ++ m), [NetCall.write "approve"])
  | Except.ok _ =>
    match writeRes with
    | Except.error m =>
      (Except.error ("Deposit failed: " ++ m), [NetCall.write "approve", NetCall.write "deposit"])
    | Except.ok txHash =>
      (Except.ok { success := true, depositRequest := depositReq, txHash := txHash,
                   timestamp := now, error := "" },
       [NetCall.write "approve", NetCall.write "deposit"])

/-- `getReserves` from contract-client.ts: a `safeRead` with fallback
`(tokenReserve, ethReserve) = ("0", "0")` around the `reserves` contract read.
`readRes` is the outcome of that read; on data `d`, `tokenReserve` is `d[1]`
and `ethReserve` is `d[0]`, and a nullish result also yields the zero pair. -/
def getReserves (cfg : ReadCfg) (readRes : Except String (Option (ℚ × ℚ))) :
    Except String Reserve :=
  safeRead cfg { tokenReserve := 0, ethReserve := 0 }
    (readRes.map fun data =>
      match data with
      | none => { tokenReserve := 0, ethReserve := 0 }
      | some d => { tokenReserve := d.2, ethReserve := d.1 })

/-- `getTotalLiquidity` from contract-client.ts, in exact arithmetic:
`formatEther` divides by 10^18, the body computes
`avgPrice * tokenInEth / 1e18 + formatEther(ethReserve)`, and `parseEther`
multiplies back by 10^18. -/
def getTotalLiquidity (avgPrice : ℚ) (reserve : Reserve) : ℚ :=
  let tokenInEth : ℚ := reserve.tokenReserve / 10 ^ 18
  let liquidity : ℚ := avgPrice * tokenInEth / 10 ^ 18 + reserve.ethReserve / 10 ^ 18
  liquidity * 10 ^ 18

/-- `getAvgPrice` from contract-client.ts: `(buyPrice + sellPrice) / 2`. -/
def getAvgPrice (buyPrice sellPrice : ℚ) : ℚ := (buyPrice + sellPrice) / 2

/-- `getAPR` from contract-client.ts: `poolYield * 365 * 100`. -/
def getAPR (poolYield : ℚ) : ℚ := poolYield * 365 * 100

/-- `getYield` from contract-client.ts: sums the fee amounts and divides by
`totalTime * totalLiquidity`, where `totalTime` is the difference of the last
and first event timestamps (milliseconds) divided by `60 * 60 * 24`. -/
def getYield (feeEvents : List PoolFeesEvent) (totalLiquidity : ℚ) : ℚ :=
  let totalFees : ℚ := feeEvents.foldl (fun acc e => acc + e.fee) 0
  let totalTime : ℚ :=
    ((feeEvents.getLastD { timestamp := 0, fee := 0 }).timestamp -
      (feeEvents.headD { timestamp := 0, fee := 0 }).timestamp) / (60 * 60 * 24)
  totalFees / (totalTime * totalLiquidity)

/-- The yield formula as the specification states it (claim C4): the sum of the
fee amounts divided by the window duration expressed in days (timestamps are
milliseconds, so a day is `1000 * 60 * 60 * 24`) times the liquidity. -/
def specYieldPerDay (feeEvents : List PoolFeesEvent) (totalLiquidity : ℚ) : ℚ :=
  let totalFees : ℚ := feeEvents.foldl (fun acc e => acc + e.fee) 0
  let days : ℚ :=
    ((feeEvents.getLastD { timestamp := 0, fee := 0 }).timestamp -
      (feeEvents.headD { timestamp := 0, fee := 0 }).timestamp) / (1000 * 60 * 60 * 24)
  totalFees / (days * totalLiquidity)

/-- Milliseconds in 24 hours, the window of `get24hBeforeBlock`. -/
def MS_PER_DAY : Int := 24 * 60 * 60 * 1000

/-- `getBlockTimestamp` from contract-client.ts: the chain timestamp of the
block (seconds), multiplied by 1000. -/
def getBlockTimestamp (blockTs : Int → Int) (blockNumber : Int) : Int :=
  blockTs blockNumber * 1000

/-- The loop of `get24hBeforeBlock`: while `low <= high`, probe
`midBlock = Math.round((low + high) / 2)` (which is `(low + high + 1) / 2`
with floor division, here written inline); move `high` below `midBlock` when
that block is within the last 24 hours of `now`, otherwise move `low` above
`midBlock`; return `low`. -/
def get24hSearch (blockTs : Int → Int) (now : Int) (low high : Int) : Int :=
  if _h : low ≤ high then
    if now - getBlockTimestamp blockTs ((low + high + 1) / 2) < MS_PER_DAY then
      get24hSearch blockTs now low ((low + high + 1) / 2 - 1)
    else
      get24hSearch blockTs now ((low + high + 1) / 2 + 1) high
  else low
termination_by (high + 1 - low).toNat
decreasing_by all_goals omega

/-- `get24hBeforeBlock` from contract-client.ts: binary search over
`[0, latestBlock]`. -/
def get24hBeforeBlock (blockTs : Int → Int) (now latestBlock : Int) : Int :=
  get24hSearch blockTs now 0 latestBlock

/-- A single ledger `getLogs` query over the inclusive block range
`[fromBlock, toBlock]`: the synthetic log set is a list of
(block number, payload) pairs in ledger order, and the query keeps the logs
whose block lies in the range, preserving order. -/
def scanLogs {α : Type} (logs : List (Nat × α)) (fromBlock toBlock : Nat) :
    List (Nat × α) :=
  logs.filter fun p => decide (fromBlock ≤ p.1) && decide (p.1 ≤ toBlock)

/-- `BLOCK_BATCH_SIZE` from `get24hVolume`. -/
def BLOCK_BATCH_SIZE : Nat := 999

/-- The three synthetic event streams fetched by each batch of `get24hVolume`
(buy, sell and swap trade logs). -/
structure TradeLogs (α β γ : Type) where
  buys : List (Nat × α)
  sells : List (Nat × β)
  swaps : List (Nat × γ)
deriving DecidableEq

/-- The batching loop of `get24hVolume`: while `currentBlock < targetBlock`,
fetch the batch `[currentBlock, min (currentBlock + 999) targetBlock]` for the
three streams and continue from `batchEndBlock + 1`, accumulating the batches
in block order. -/
def batchedScan {α β γ : Type} (ledger : TradeLogs α β γ)
    (currentBlock targetBlock : Nat) : TradeLogs α β γ :=
  if currentBlock < targetBlock then
    let batchEndBlock := min (currentBlock + BLOCK_BATCH_SIZE) targetBlock
    let rest := batchedScan ledger (batchEndBlock + 1) targetBlock
    { buys := scanLogs ledger.buys currentBlock batchEndBlock ++ rest.buys
      sells := scanLogs ledger.sells currentBlock batchEndBlock ++ rest.sells
      swaps := scanLogs ledger.swaps currentBlock batchEndBlock ++ rest.swaps }
  else { buys := [], sells := [], swaps := [] }
termination_by targetBlock - currentBlock
decreasing_by simp only [BLOCK_BATCH_SIZE]; omega

/-- The number of batch iterations the `get24hVolume` loop performs. -/
def batchCount (currentBlock targetBlock : Nat) : Nat :=
  if currentBlock < targetBlock then
    batchCount (min (currentBlock + BLOCK_BATCH_SIZE) targetBlock + 1) targetBlock + 1
  else 0
termination_by targetBlock - currentBlock
decreasing_by simp only [BLOCK_BATCH_SIZE]; omega

/-- `buildDefaultPool` from contract-client.ts: the placeholder pool returned
when the `getPool` body fails with an expected read failure. -/
def buildDefaultPool (token : Token) (now : ℤ) : Pool :=
  { token := token
    reserve := { tokenReserve := 0, ethReserve := 0 }
    lpToken :=
      { address := token.address, symbol := "LP", name := "LP Token",
        decimals := 18, totalSupply := 0, balance := 0 }
    buyPrice := 0
    sellPrice := 0
    avgPrice := 0
    tokenRatio := 0
    volume24h := 0
    totalLiquidty := 0
    apr := 0
    lastExchangeTs := 0
    lastUpdated := now }

/-- The outcomes of the external calls performed inside the body of `getPool`:
`lpTokenRes` is the outcome of `getLPToken` (fatal-wrapped, not safe-read),
the remaining fields are the outcomes of the inner reads that each sit inside
their own `safeRead` wrapper, and `now` models `Date.now()`. -/
structure PoolOracle where
  lpTokenRes : Except String LiquidityPoolToken
  reservesRes : Except String (Option (ℚ × ℚ))
  buyPriceRes : Except String ℚ
  sellPriceRes : Except String ℚ
  tokenRatioRes : Except String ℚ
  volume24hRes : Except String ℚ
  feeCountRes : Except String Nat
  feeEventsRes : Except String (List PoolFeesEvent)
  lastExchangeRes : Except String ℤ
  now : ℤ

/-- The body of `getPool` from contract-client.ts: resolve the LP token (fatal
on failure), then the safe-read wrapped reads, compute the derived metrics
(`getAvgPrice`, `getTotalLiquidity`, the fee-event yield and `getAPR`), and
assemble the `Pool` record. -/
def getPoolBody (cfg : ReadCfg) (token : Token) (o : PoolOracle) :
    Except String Pool := do
  let lpToken ← o.lpTokenRes
  let reserve ← getReserves cfg o.reservesRes
  let buyPrice ← safeRead cfg 0 o.buyPriceRes
  let sellPrice ← safeRead cfg 0 o.sellPriceRes
  let tokenRatio ← safeRead cfg 0 o.tokenRatioRes
  let volume24h ← safeRead cfg 0 o.volume24hRes
  let avgPrice := getAvgPrice buyPrice sellPrice
  let totalLiquidity := getTotalLiquidity avgPrice reserve
  let feeEventsCount ← safeRead cfg 0 o.feeCountRes
  let poolFeesEvents ←
    if feeEventsCount > 0 then safeRead cfg [] o.feeEventsRes else pure []
  let poolYield : ℚ :=
    if feeEventsCount > 0 && decide (0 < poolFeesEvents.length) then
      getYield poolFeesEvents totalLiquidity
    else 0
  let apr := getAPR poolYield
  let lastExchangeTs ← safeRead cfg 0 o.lastExchangeRes
  pure
    { token := token
      reserve := reserve
      lpToken := lpToken
      buyPrice := buyPrice
      sellPrice := sellPrice
      avgPrice := avgPrice
      tokenRatio := tokenRatio
      volume24h := volume24h
      totalLiquidty := totalLiquidity
      apr := apr
      lastExchangeTs := lastExchangeTs
      lastUpdated := o.now }

/-- `getPool` from contract-client.ts: the whole body wrapped in `safeRead`
with fallback `buildDefaultPool token`. -/
def getPool (cfg : ReadCfg) (token : Token) (o : PoolOracle) :
    Except String Pool :=
  safeRead cfg (buildDefaultPool token o.now) (getPoolBody cfg token o)

/-- A connection configuration with a known chain and an available client. -/
def cfgOK : ReadCfg := { hasAddress := true, hasPublicClient := true }

/-- Concrete token fixture. -/
def tok0 : Token := { address := "0xToken", symbol := "TKN", name := "Token", decimals := 18 }

/-- Concrete deposit request fixture. -/
def req0 : DepositRequest := { token := tok0, tokenAmount := 1, ethAmount := 2 }

/-- Concrete LP-token fixture whose symbol differs from the placeholder "LP". -/
def lp0 : LiquidityPoolToken :=
  { address := "0xLP", symbol := "TLP", name := "T LP", decimals := 18,
    totalSupply := 100, balance := 5 }

/-- Oracle fixture for `getPool` in which only the buy-price read fails, with an
expected-recoverable error, while the LP-token resolution succeeds. -/
def oracleBuyFails : PoolOracle :=
  { lpTokenRes := Except.ok lp0
    reservesRes := Except.ok (some (7, 9))
    buyPriceRes := Except.error "returned no data"
    sellPriceRes := Except.ok 4
    tokenRatioRes := Except.ok 1
    volume24hRes := Except.ok 0
    feeCountRes := Except.ok 0
    feeEventsRes := Except.ok []
    lastExchangeRes := Except.ok 0
    now := 1111 }

/-- Oracle fixture for `getPool` in which the LP-token resolution itself fails
with an expected-recoverable error (wrapped by `getLPToken`). -/
def oracleLpFails : PoolOracle :=
  { lpTokenRes := Except.error "Error fetching LP token data: returned no data"
    reservesRes := Except.ok (some (7, 9))
    buyPriceRes := Except.ok 3
    sellPriceRes := Except.ok 4
    tokenRatioRes := Except.ok 1
    volume24hRes := Except.ok 0
    feeCountRes := Except.ok 0
    feeEventsRes := Except.ok []
    lastExchangeRes := Except.ok 0
    now := 7 }

/-- Fee-event fixture: two events exactly one day (86400000 ms) apart. -/
def feeEvents0 : List PoolFeesEvent :=
  [{ timestamp := 0, fee := 100 }, { timestamp := 86400000, fee := 100 }]

/-! Helper lemmas. -/

theorem scanLogs_nil {α : Type} (a b : Nat) : scanLogs ([] : List (Nat × α)) a b = [] := rfl

theorem scanLogs_cons_pos {α : Type} (x : Nat × α) (t : List (Nat × α)) (a b : Nat)
    (h1 : a ≤ x.1) (h2 : x.1 ≤ b) :
    scanLogs (x :: t) a b = x :: scanLogs t a b := by
  simp only [scanLogs, List.filter_cons]
  rw [if_pos]
  simp only [Bool.and_eq_true, decide_eq_true_eq]
  exact ⟨h1, h2⟩

theorem scanLogs_cons_neg {α : Type} (x : Nat × α) (t : List (Nat × α)) (a b : Nat)
    (h : ¬ (a ≤ x.1 ∧ x.1 ≤ b)) :
    scanLogs (x :: t) a b = scanLogs t a b := by
  simp only [scanLogs, List.filter_cons]
  rw [if_neg]
  simp only [Bool.and_eq_true, decide_eq_true_eq]
  exact h

theorem scanLogs_all_above {α : Type} (t : List (Nat × α)) (a b : Nat)
    (h : ∀ y ∈ t, b < y.1) : scanLogs t a b = [] := by
  induction t with
  | nil => rfl
  | cons x s ih =>
    rw [scanLogs_cons_neg x s a b (by
      intro hc
      exact absurd (h x (List.mem_cons_self x s)) (by omega))]
    exact ih fun y hy => h y (List.mem_cons_of_mem x hy)

theorem scanLogs_lower_irrelevant {α : Type} (t : List (Nat × α)) (a a' b : Nat)
    (h : ∀ y ∈ t, a ≤ y.1 ∧ a' ≤ y.1) : scanLogs t a b = scanLogs t a' b := by
  induction t with
  | nil => rfl
  | cons x s ih =>
    have hx := h x (List.mem_cons_self x s)
    have hs : ∀ y ∈ s, a ≤ y.1 ∧ a' ≤ y.1 := fun y hy => h y (List.mem_cons_of_mem x hy)
    by_cases hb : x.1 ≤ b
    · rw [scanLogs_cons_pos x s a b hx.1 hb, scanLogs_cons_pos x s a' b hx.2 hb, ih hs]
    · rw [scanLogs_cons_neg x s a b (by omega), scanLogs_cons_neg x s a' b (by omega), ih hs]

/-- Splitting an inclusive block-range scan of a block-ordered log list at an
interior boundary `m`: the two sub-scans concatenate to the whole scan. -/
theorem scanLogs_split {α : Type} (logs : List (Nat × α))
    (hsorted : logs.Pairwise fun p q => p.1 ≤ q.1) :
    ∀ a m b : Nat, a ≤ m + 1 → m ≤ b →
      scanLogs logs a m ++ scanLogs logs (m + 1) b = scanLogs logs a b := by
  induction logs with
  | nil => intro a m b _ _; rfl
  | cons x t ih =>
    intro a m b h1 h2
    have hsx : ∀ y ∈ t, x.1 ≤ y.1 := (List.pairwise_cons.mp hsorted).1
    have ht := (List.pairwise_cons.mp hsorted).2
    by_cases hc1 : a ≤ x.1 ∧ x.1 ≤ m
    · rw [scanLogs_cons_pos x t a m hc1.1 hc1.2,
        scanLogs_cons_neg x t (m + 1) b (by omega),
        scanLogs_cons_pos x t a b hc1.1 (by omega)]
      simp only [List.cons_append]
      rw [ih ht a m b h1 h2]
    · by_cases hc2 : m + 1 ≤ x.1 ∧ x.1 ≤ b
      · rw [scanLogs_cons_neg x t a m (by omega),
          scanLogs_cons_pos x t (m + 1) b hc2.1 hc2.2,
          scanLogs_cons_pos x t a b (by omega) hc2.2]
        rw [scanLogs_all_above t a m (fun y hy => by have := hsx y hy; omega)]
        simp only [List.nil_append]
        rw [scanLogs_lower_irrelevant t (m + 1) a b
          (fun y hy => by have := hsx y hy; omega)]
      · rw [scanLogs_cons_neg x t a m (by omega),
          scanLogs_cons_neg x t (m + 1) b (by omega),
          scanLogs_cons_neg x t a b (by omega)]
        exact ih ht a m b h1 h2

theorem batchedScan_stop {α β γ : Type} (ledger : TradeLogs α β γ) (c t : Nat)
    (h : ¬ c < t) : batchedScan ledger c t = { buys := [], sells := [], swaps := [] } := by
  rw [batchedScan.eq_def]
  simp [h]

theorem batchedScan_step {α β γ : Type} (ledger : TradeLogs α β γ) (c t : Nat)
    (h : c < t) :
    batchedScan ledger c t =
      { buys := scanLogs ledger.buys c (min (c + 999) t) ++
          (batchedScan ledger (min (c + 999) t + 1) t).buys
        sells := scanLogs ledger.sells c (min (c + 999) t) ++
          (batchedScan ledger (min (c + 999) t + 1) t).sells
        swaps := scanLogs ledger.swaps c (min (c + 999) t) ++
          (batchedScan ledger (min (c + 999) t + 1) t).swaps } := by
  rw [batchedScan.eq_def]
  simp [h, BLOCK_BATCH_SIZE]

theorem batchCount_stop (c t : Nat) (h : ¬ c < t) : batchCount c t = 0 := by
  rw [batchCount.eq_def]
  simp [h]

theorem batchCount_step (c t : Nat) (h : c < t) :
    batchCount c t = batchCount (min (c + 999) t + 1) t + 1 := by
  rw [batchCount.eq_def]
  simp [h, BLOCK_BATCH_SIZE]

theorem batchCount_formula_aux :
    ∀ (n c t : Nat), t - c ≤ n → batchCount c t = (t - c + 999) / 1000 := by
  intro n
  induction n with
  | zero =>
    intro c t hn
    rw [batchCount_stop c t (by omega)]
    omega
  | succ n ih =>
    intro c t hn
    by_cases h : c < t
    · rw [batchCount_step c t h, ih (min (c + 999) t + 1) t (by omega)]
      omega
    · rw [batchCount_stop c t h]
      omega

theorem batchCount_formula (c t : Nat) : batchCount c t = (t - c + 999) / 1000 :=
  batchCount_formula_aux (t - c) c t le_rfl

theorem batchedScan_covers_aux {α β γ : Type} (ledger : TradeLogs α β γ)
    (hb : ledger.buys.Pairwise fun p q => p.1 ≤ q.1)
    (hs : ledger.sells.Pairwise fun p q => p.1 ≤ q.1)
    (hw : ledger.swaps.Pairwise fun p q => p.1 ≤ q.1) :
    ∀ (n c t : Nat), t - c ≤ n → c < t → (t - c) % 1000 ≠ 0 →
      batchedScan ledger c t =
        { buys := scanLogs ledger.buys c t
          sells := scanLogs ledger.sells c t
          swaps := scanLogs ledger.swaps c t } := by
  intro n
  induction n with
  | zero => intro c t hn hct _; omega
  | succ n ih =>
    intro c t hn hct hmod
    rw [batchedScan_step ledger c t hct]
    by_cases hend : c + 999 < t
    · have hmin : min (c + 999) t = c + 999 := by omega
      have ht1 : c + 1000 < t := by omega
      have ht2 : (t - (c + 1000)) % 1000 ≠ 0 := by omega
      rw [hmin, ih (c + 1000) t (by omega) ht1 ht2]
      simp only [TradeLogs.mk.injEq]
      exact ⟨scanLogs_split ledger.buys hb c (c + 999) t (by omega) (by omega),
        scanLogs_split ledger.sells hs c (c + 999) t (by omega) (by omega),
        scanLogs_split ledger.swaps hw c (c + 999) t (by omega) (by omega)⟩
    · have hmin : min (c + 999) t = t := by omega
      rw [hmin, batchedScan_stop ledger (t + 1) t (by omega)]
      simp

/-- Blocks `a` and later are all within the 24-hour window whenever block `a`
is: the timestamp monotonicity hypothesis transports recency upward. -/
theorem recent_upward (blockTs : Int → Int) (now : Int)
    (hmono : ∀ a b : Int, a ≤ b → blockTs a ≤ blockTs b) :
    ∀ a b : Int, a ≤ b → now - getBlockTimestamp blockTs a < MS_PER_DAY →
      now - getBlockTimestamp blockTs b < MS_PER_DAY := by
  intro a b hab h
  have := hmono a b hab
  simp only [getBlockTimestamp, MS_PER_DAY] at *
  omega

/-- Invariant of the `get24hBeforeBlock` binary-search loop: the returned
boundary `r` lies in `[low, high + 1]`, every block below `r` (and at least
`low`) is outside the 24-hour window, and every block in `[r, high]` is inside
it. -/
theorem get24hSearch_spec (blockTs : Int → Int) (now : Int)
    (hup : ∀ a b : Int, a ≤ b → now - getBlockTimestamp blockTs a < MS_PER_DAY →
        now - getBlockTimestamp blockTs b < MS_PER_DAY) :
    ∀ (n : ℕ) (low high : Int), (high + 1 - low).toNat ≤ n → low ≤ high + 1 →
      low ≤ get24hSearch blockTs now low high ∧
      get24hSearch blockTs now low high ≤ high + 1 ∧
      (∀ b : Int, low ≤ b → b < get24hSearch blockTs now low high →
          ¬ now - getBlockTimestamp blockTs b < MS_PER_DAY) ∧
      (∀ b : Int, get24hSearch blockTs now low high ≤ b → b ≤ high →
          now - getBlockTimestamp blockTs b < MS_PER_DAY) := by
  intro n
  induction n with
  | zero =>
    intro low high hn hlh
    have hnl : ¬ low ≤ high := by omega
    rw [get24hSearch.eq_def, dif_neg hnl]
    refine ⟨le_refl low, by omega, ?_, ?_⟩
    · intro b hb hb'; omega
    · intro b hb hb'; omega
  | succ n ih =>
    intro low high hn hlh
    by_cases h : low ≤ high
    · rw [get24hSearch.eq_def, dif_pos h]
      have hmlow : low ≤ (low + high + 1) / 2 := by omega
      have hmhigh : (low + high + 1) / 2 ≤ high := by omega
      by_cases hr : now - getBlockTimestamp blockTs ((low + high + 1) / 2) < MS_PER_DAY
      · rw [if_pos hr]
        obtain ⟨h1, h2, h3, h4⟩ :=
          ih low ((low + high + 1) / 2 - 1) (by omega) (by omega)
        refine ⟨h1, by omega, h3, ?_⟩
        intro b hb hb'
        by_cases hbm : b ≤ (low + high + 1) / 2 - 1
        · exact h4 b hb hbm
        · exact hup ((low + high + 1) / 2) b (by omega) hr
      · rw [if_neg hr]
        obtain ⟨h1, h2, h3, h4⟩ :=
          ih ((low + high + 1) / 2 + 1) high (by omega) (by omega)
        refine ⟨by omega, h2, ?_, h4⟩
        intro b hb hb'
        by_cases hbm : (low + high + 1) / 2 + 1 ≤ b
        · exact h3 b hbm hb'
        · intro hrec
          exact hr (hup b ((low + high + 1) / 2) (by omega) hrec)
    · rw [get24hSearch.eq_def, dif_neg h]
      refine ⟨le_refl low, by omega, ?_, ?_⟩
      · intro b hb hb'; omega
      · intro b hb hb'; omega

/-! Claim theorems. -/

/-- C1: with a supported chain and an available client, a read wrapped by
`safeRead` whose inner function throws an error matching the expected-failure
patterns returns the supplied typed fallback and does not throw — in
particular `getReserves` returns exactly the zero reserve pair — and a read
whose inner function throws a non-matching error rethrows that original error
unchanged. -/
theorem safeRead_classification (cfg : ReadCfg)
    (hA : cfg.hasAddress = true) (hP : cfg.hasPublicClient = true) :
    (∀ m : String, isExpectedReadFailure m = true →
        getReserves cfg (Except.error m) =
          Except.ok { tokenReserve := 0, ethReserve := 0 }) ∧
    (∀ (T : Type) (fallback : T) (m : String), isExpectedReadFailure m = true →
        safeRead cfg fallback (Except.error m) = Except.ok fallback) ∧
    (∀ (T : Type) (fallback : T) (m : String), isExpectedReadFailure m = false →
        safeRead cfg fallback (Except.error m) = Except.error m) := by
  have hcan : ensureCanRead cfg = Except.ok () := by
    simp [ensureCanRead, hA, hP]
  refine ⟨?_, ?_, ?_⟩
  · intro m hm
    simp [getReserves, safeRead, hcan, Except.map, hm]
  · intro T fallback m hm
    simp [safeRead, hcan, hm]
  · intro T fallback m hm
    simp [safeRead, hcan, hm]

theorem safeRead_classification_witness :
    getReserves cfgOK (Except.error "returned no data") =
      Except.ok { tokenReserve := 0, ethReserve := 0 } ∧
    safeRead cfgOK (0 : ℚ) (Except.error "unknown RPC error") =
      Except.error "unknown RPC error" := by
  have h := safeRead_classification cfgOK rfl rfl
  exact ⟨h.1 "returned no data" (by decide),
    h.2.2 ℚ 0 "unknown RPC error" (by decide)⟩

/-- C2: for every monotonically non-decreasing block-to-timestamp mapping and
every current time, `get24hBeforeBlock` (a total function, so it terminates)
returns the lowest block of `[0, latestBlock]` whose timestamp is strictly
within the last 24 hours of `now` whenever such a block exists, and returns 0
when every block of the chain is within the window. -/
theorem get24hBeforeBlock_spec (blockTs : Int → Int) (now latestBlock : Int)
    (hmono : ∀ a b : Int, a ≤ b → blockTs a ≤ blockTs b) :
    ((∃ b : Int, 0 ≤ b ∧ b ≤ latestBlock ∧
        now - getBlockTimestamp blockTs b < MS_PER_DAY) →
      0 ≤ get24hBeforeBlock blockTs now latestBlock ∧
      get24hBeforeBlock blockTs now latestBlock ≤ latestBlock ∧
      now - getBlockTimestamp blockTs (get24hBeforeBlock blockTs now latestBlock) <
        MS_PER_DAY ∧
      (∀ b : Int, 0 ≤ b → now - getBlockTimestamp blockTs b < MS_PER_DAY →
        get24hBeforeBlock blockTs now latestBlock ≤ b)) ∧
    ((∀ b : Int, 0 ≤ b → b ≤ latestBlock →
        now - getBlockTimestamp blockTs b < MS_PER_DAY) →
      get24hBeforeBlock blockTs now latestBlock = 0) := by
  have hup := recent_upward blockTs now hmono
  by_cases hlat : 0 ≤ latestBlock
  · obtain ⟨h1, h2, h3, h4⟩ :=
      get24hSearch_spec blockTs now hup (latestBlock + 1).toNat 0 latestBlock
        (by omega) (by omega)
    simp only [get24hBeforeBlock]
    constructor
    · rintro ⟨b, hb0, hbl, hbr⟩
      have hrb : get24hSearch blockTs now 0 latestBlock ≤ b := by
        by_contra hlt
        exact h3 b hb0 (by omega) hbr
      refine ⟨h1, le_trans hrb hbl, h4 _ le_rfl (le_trans hrb hbl), ?_⟩
      intro c hc0 hcr
      by_contra hlt
      exact h3 c hc0 (by omega) hcr
    · intro hall
      by_contra hne
      exact h3 0 le_rfl (by omega) (hall 0 le_rfl hlat)
  · constructor
    · rintro ⟨b, hb0, hbl, _⟩
      omega
    · intro _
      simp only [get24hBeforeBlock]
      rw [get24hSearch.eq_def, dif_neg (by omega : ¬ (0 : Int) ≤ latestBlock)]

theorem get24hBeforeBlock_spec_witness :
    get24hBeforeBlock (fun b => b) 10 5 = 0 :=
  (get24hBeforeBlock_spec (fun b => b) 10 5 (fun a b hab => hab)).2
    (by
      intro b hb0 hbl
      simp only [getBlockTimestamp, MS_PER_DAY]
      omega)

/-- C3 (counterexample): for the range `[0, 1000]` — whose width is a multiple
of the 1000-block batch advance — and a synthetic log set with one buy log at
block 1000, the batched scan of `get24hVolume` returns no logs while the
single unbounded scan of the same range returns that log, so the two are not
equal. -/
theorem batchedScan_misses_boundary_block :
    (0 : Nat) < 1000 ∧
    batchedScan ({ buys := [(1000, 0)], sells := [], swaps := [] } :
        TradeLogs Nat Nat Nat) 0 1000 = { buys := [], sells := [], swaps := [] } ∧
    scanLogs ([(1000, 0)] : List (Nat × Nat)) 0 1000 = [(1000, 0)] ∧
    batchedScan ({ buys := [(1000, 0)], sells := [], swaps := [] } :
        TradeLogs Nat Nat Nat) 0 1000 ≠
      { buys := scanLogs ([(1000, 0)] : List (Nat × Nat)) 0 1000
        sells := scanLogs ([] : List (Nat × Nat)) 0 1000
        swaps := scanLogs ([] : List (Nat × Nat)) 0 1000 } := by
  have h1 : batchedScan ({ buys := [(1000, 0)], sells := [], swaps := [] } :
      TradeLogs Nat Nat Nat) 0 1000 = { buys := [], sells := [], swaps := [] } := by
    rw [batchedScan_step _ 0 1000 (by omega),
      batchedScan_stop _ (min (0 + 999) 1000 + 1) 1000 (by omega)]
    decide
  refine ⟨by decide, h1, by decide, ?_⟩
  rw [h1]
  decide

/-- C3 (amended): for every block range with `fromBlock < toBlock` whose width
is not a multiple of 1000 (the batch advance induced by `BLOCK_BATCH_SIZE`
999 with inclusive endpoints) and every block-ordered synthetic log set, the
sequential batched scan of `get24hVolume` concatenates, in block order, to
exactly the single unbounded scan of `[fromBlock, toBlock]` for each of the
buy, sell and swap streams; the number of sequential batch requests is
`⌈(toBlock - fromBlock) / 1000⌉` — in particular 3 for a range of width
2500. -/
theorem batchedScan_eq_single_scan {α β γ : Type} (ledger : TradeLogs α β γ)
    (hb : ledger.buys.Pairwise fun p q => p.1 ≤ q.1)
    (hs : ledger.sells.Pairwise fun p q => p.1 ≤ q.1)
    (hw : ledger.swaps.Pairwise fun p q => p.1 ≤ q.1)
    (fromBlock toBlock : Nat) (hlt : fromBlock < toBlock)
    (hmod : (toBlock - fromBlock) % 1000 ≠ 0) :
    batchedScan ledger fromBlock toBlock =
      { buys := scanLogs ledger.buys fromBlock toBlock
        sells := scanLogs ledger.sells fromBlock toBlock
        swaps := scanLogs ledger.swaps fromBlock toBlock } ∧
    batchCount fromBlock toBlock = (toBlock - fromBlock + 999) / 1000 :=
  ⟨batchedScan_covers_aux ledger hb hs hw (toBlock - fromBlock) fromBlock toBlock
      le_rfl hlt hmod,
    batchCount_formula fromBlock toBlock⟩

theorem batchedScan_eq_single_scan_witness :
    batchedScan ({ buys := [(5, 0)], sells := [], swaps := [] } :
        TradeLogs Nat Nat Nat) 0 2500 = { buys := [(5, 0)], sells := [], swaps := [] } ∧
    batchCount 0 2500 = 3 := by
  have h := batchedScan_eq_single_scan
    ({ buys := [(5, 0)], sells := [], swaps := [] } : TradeLogs Nat Nat Nat)
    (by decide) (by decide) (by decide) 0 2500 (by decide) (by decide)
  refine ⟨?_, ?_⟩
  · rw [h.1]; decide
  · rw [h.2]

/-- C4 (evaluation at the failing input): for two fee events whose millisecond
timestamps are exactly one wall-clock day apart (0 and 86400000) with fee 100
each and totalLiquidity 1, `getYield` returns 1/5, because it divides the
millisecond window by 86400 (its comment says days), while the formula the
claim states — fees over window-duration-in-days times liquidity — gives 200;
the code result is exactly 1000 times smaller. -/
theorem getYield_divergence :
    getYield feeEvents0 1 = 1 / 5 ∧
    specYieldPerDay feeEvents0 1 = 200 ∧
    getYield feeEvents0 1 ≠ specYieldPerDay feeEvents0 1 ∧
    getYield feeEvents0 1 * 1000 = specYieldPerDay feeEvents0 1 := by
  have hg : getYield feeEvents0 1 = 1 / 5 := by
    norm_num [getYield, feeEvents0, List.foldl, List.getLastD, List.getLast?,
      List.headD, Option.getD]
  have hd : specYieldPerDay feeEvents0 1 = 200 := by
    norm_num [specYieldPerDay, feeEvents0, List.foldl, List.getLastD, List.getLast?,
      List.headD, Option.getD]
  refine ⟨hg, hd, ?_, ?_⟩
  · rw [hg, hd]
    norm_num
  · rw [hg, hd]
    norm_num

/-- C5: `getTotalLiquidity` equals the average price times the token reserve
converted from minor units to whole-ether units, plus the ETH reserve, as a
minor-unit amount; concretely tokenReserve = 10^18, ethReserve = 10^18 and
avgPrice = 2 * 10^18 give 3 * 10^18. -/
theorem getTotalLiquidity_spec :
    (∀ (avgPrice : ℚ) (reserve : Reserve),
        getTotalLiquidity avgPrice reserve =
          avgPrice * (reserve.tokenReserve / 10 ^ 18) + reserve.ethReserve) ∧
    getTotalLiquidity (2 * 10 ^ 18)
      { tokenReserve := 10 ^ 18, ethReserve := 10 ^ 18 } = 3 * 10 ^ 18 := by
  constructor
  · intro avgPrice reserve
    simp only [getTotalLiquidity]
    field_simp
    ring
  · norm_num [getTotalLiquidity]

/-- C6 (counterexample): `getAvgPrice` on the integer inputs 1 and 2 produces
3/2, i.e. the decimal string "1.5" — a fractional, non-integer monetary
value (denominator 2). -/
theorem getAvgPrice_fractional_counterexample :
    getAvgPrice 1 2 = 3 / 2 ∧ ¬ ∃ n : ℤ, getAvgPrice 1 2 = (n : ℚ) := by
  have h : getAvgPrice 1 2 = 3 / 2 := by
    norm_num [getAvgPrice]
  refine ⟨h, ?_⟩
  rintro ⟨n, hn⟩
  rw [h] at hn
  have h2 : (3 : ℤ) = 2 * n := by
    have h3 : (3 : ℚ) = 2 * (n : ℚ) := by
      field_simp at hn
      linarith
    exact_mod_cast h3
  omega

/-- C6 (amended): `getAvgPrice` always returns the exact half of the sum of
its integer inputs, so its result is an integer (an integer minor-unit string)
exactly when `buyPrice + sellPrice` is even; in particular 200 and 100 give
the integer 150.  The blanket every-amount-is-an-integer-string invariant
does not hold. -/
theorem getAvgPrice_integer_iff :
    (∀ b s : ℤ, ((getAvgPrice (b : ℚ) (s : ℚ)).den = 1 ↔ 2 ∣ b + s)) ∧
    getAvgPrice 200 100 = 150 := by
  constructor
  · intro b s
    have hval : getAvgPrice (b : ℚ) (s : ℚ) = ((b + s : ℤ) : ℚ) / 2 := by
      simp only [getAvgPrice]
      push_cast
      ring
    constructor
    · intro hden
      have hnum : ((getAvgPrice (b : ℚ) (s : ℚ)).num : ℚ) =
          getAvgPrice (b : ℚ) (s : ℚ) :=
        (Rat.den_eq_one_iff _).mp hden
      refine ⟨(getAvgPrice (b : ℚ) (s : ℚ)).num, ?_⟩
      have h2 : ((b : ℚ) + (s : ℚ)) = 2 * ((getAvgPrice (b : ℚ) (s : ℚ)).num : ℚ) := by
        rw [hnum, hval]
        push_cast
        ring
      exact_mod_cast h2
    · rintro ⟨k, hk⟩
      have h3 : getAvgPrice (b : ℚ) (s : ℚ) = (k : ℚ) := by
        rw [hval, hk]
        push_cast
        ring
      rw [h3]
      exact Rat.den_intCast k
  · norm_num [getAvgPrice]

/-- C7: a deposit whose approval phase throws never issues the primary
`deposit` write, and the error surfaced to the caller is the original failure
wrapped as a deposit failure; a `DepositResult` (with `success := true`) is
returned only when both the approval and the write phase completed.  The
client itself holds no mutable state, so no state change is modeled. -/
theorem deposit_two_phase (depositReq : DepositRequest) (now : ℤ) :
    (∀ (m : String) (writeRes : Except String String),
        (deposit depositReq now (Except.error m) writeRes).1 =
          Except.error ("Deposit failed: " ++ ("Token approval failed: " ++ m)) ∧
        NetCall.write "deposit" ∉ (deposit depositReq now (Except.error m) writeRes).2) ∧
    (∀ (approveRes : Except String Unit) (writeRes : Except String String)
        (r : DepositResult),
        (deposit depositReq now approveRes writeRes).1 = Except.ok r →
        r.success = true ∧ approveRes = Except.ok () ∧ writeRes = Except.ok r.txHash) := by
  constructor
  · intro m writeRes
    refine ⟨rfl, ?_⟩
    simp [deposit, approveToken]
  · intro approveRes writeRes r h
    match approveRes, writeRes with
    | Except.error m, _ =>
      simp [deposit, approveToken] at h
    | Except.ok u, Except.error m =>
      cases u
      simp [deposit, approveToken] at h
    | Except.ok u, Except.ok tx =>
      cases u
      simp only [deposit, approveToken, Except.ok.injEq] at h
      subst h
      exact ⟨rfl, rfl, rfl⟩

theorem deposit_two_phase_witness :
    ({ success := true, depositRequest := req0, txHash := "0xabc", timestamp := 5,
        error := "" } : DepositResult).success = true ∧
    (Except.ok () : Except String Unit) = Except.ok () ∧
    (Except.ok "0xabc" : Except String String) =
      Except.ok ({ success := true, depositRequest := req0, txHash := "0xabc",
                   timestamp := 5, error := "" } : DepositResult).txHash :=
  (deposit_two_phase req0 5).2 (Except.ok ()) (Except.ok "0xabc")
    { success := true, depositRequest := req0, txHash := "0xabc", timestamp := 5,
      error := "" }
    rfl

/-- C8: constructing the client for a chain identifier absent from the
configured chain-to-address mapping throws exactly `UNSUPPORTED_CHAIN`, and
the constructor issues no network call at all (empty call trace). -/
theorem mkContractClient_unsupported (addresses : Nat → Option String)
    (chainId : Nat) (h : addresses chainId = none) :
    mkContractClient addresses (some chainId) =
      (Except.error UNSUPPORTED_CHAIN, ([] : List NetCall)) := by
  simp [mkContractClient, h]

theorem mkContractClient_unsupported_witness :
    mkContractClient (fun _ => none) (some 5) =
      (Except.error UNSUPPORTED_CHAIN, ([] : List NetCall)) :=
  mkContractClient_unsupported (fun _ => none) 5 rfl

/-- C9: `isPoolInstantiated` returns false exactly when the resolved LP-token
address equals the all-zero address, and true for any other resolved
address. -/
theorem isPoolInstantiated_iff_zero (s : String) :
    isPoolInstantiated (some s) = false ↔ s = zeroAddress := by
  simp only [isPoolInstantiated]
  constructor
  · intro hfalse
    by_contra hne
    have h2 : (s == zeroAddress) = false := beq_eq_false_iff_ne.mpr hne
    simp [h2] at hfalse
  · intro h
    subst h
    have h1 : ((!(zeroAddress == "")) && (zeroAddress == zeroAddress)) = true := by decide
    have h0 : zeroAddress ≠ "" := by decide
    simp [h1, h0]

/-- C10 (counterexample): when the buy-price read inside `getPool` fails with
the expected-recoverable error "returned no data" but the LP-token resolution
succeeds, `getPool` does not throw, yet it does not return the placeholder
pool: the buy price is the local "0" fallback while the LP token keeps its
real symbol "TLP" instead of the placeholder symbol "LP". -/
theorem getPool_partial_fallback_counterexample :
    isExpectedReadFailure "returned no data" = true ∧
    oracleBuyFails.buyPriceRes = Except.error "returned no data" ∧
    (getPool cfgOK tok0 oracleBuyFails).map (fun p => p.buyPrice) = Except.ok 0 ∧
    (getPool cfgOK tok0 oracleBuyFails).map (fun p => p.lpToken.symbol) =
      Except.ok "TLP" ∧
    getPool cfgOK tok0 oracleBuyFails ≠
      Except.ok (buildDefaultPool tok0 oracleBuyFails.now) := by
  refine ⟨by decide, rfl, rfl, rfl, ?_⟩
  intro h
  have hsym : (getPool cfgOK tok0 oracleBuyFails).map (fun p => p.lpToken.symbol) =
      Except.ok "TLP" := rfl
  rw [h] at hsym
  simp only [Except.map, buildDefaultPool, Except.ok.injEq] at hsym
  exact absurd hsym (by decide)

/-- C10 (amended): when the body of `getPool` fails with an
expected-recoverable error — in particular when the LP-token resolution, whose
failures are not absorbed by an inner wrapper, fails so — `getPool` does not
throw and returns the placeholder pool built by `buildDefaultPool`: monetary
fields all zero, apr and lastExchangeTs zero, and a synthetic LP token with
the queried token's own address, symbol "LP", name "LP Token", decimals 18 and
zero totalSupply and balance.  Reads that sit inside their own safe-read
wrapper absorb their recoverable failures locally and yield their zero
fallbacks without producing the placeholder pool. -/
theorem getPool_expected_failure_fallback (cfg : ReadCfg) (token : Token)
    (o : PoolOracle) (m : String)
    (hA : cfg.hasAddress = true) (hP : cfg.hasPublicClient = true)
    (hbody : getPoolBody cfg token o = Except.error m)
    (hexp : isExpectedReadFailure m = true) :
    getPool cfg token o = Except.ok (buildDefaultPool token o.now) ∧
    buildDefaultPool token o.now =
      { token := token
        reserve := { tokenReserve := 0, ethReserve := 0 }
        lpToken := { address := token.address, symbol := "LP", name := "LP Token",
                     decimals := 18, totalSupply := 0, balance := 0 }
        buyPrice := 0
        sellPrice := 0
        avgPrice := 0
        tokenRatio := 0
        volume24h := 0
        totalLiquidty := 0
        apr := 0
        lastExchangeTs := 0
        lastUpdated := o.now } := by
  constructor
  · have hcan : ensureCanRead cfg = Except.ok () := by
      simp [ensureCanRead, hA, hP]
    simp [getPool, safeRead, hcan, hbody, hexp]
  · rfl

theorem getPool_expected_failure_fallback_witness :
    getPool cfgOK tok0 oracleLpFails = Except.ok (buildDefaultPool tok0 7) :=
  (getPool_expected_failure_fallback cfgOK tok0 oracleLpFails
    "Error fetching LP token data: returned no data" rfl rfl rfl (by decide)).1

end Maelstrom
